import Mathlib

/-!
Verification of the incremental ingestion and deduplication core of the
notion_news pipeline. The Python sources (src/models.py, src/transform/llm.py,
src/extract/rss.py, src/extract/youtube.py, src/load/notion.py, main.py) are
shallowly embedded: timestamps become integers, external HTTP calls become
explicit environment parameters, Python sets of canonical ids become lists with
membership, and the mutable run state is threaded explicitly.
-/

namespace NotionNews

/-- The guard `cutoff and ts < cutoff` shared by rss.py line 49 and
youtube.py line 142: true exactly when a cutoff is present and the
timestamp is strictly older than it. -/
def olderThan (cutoff : Option Int) (ts : Int) : Bool :=
  match cutoff with
  | some t => decide (ts < t)
  | none => false

/-- Embedding of `ContentItem` (src/models.py). `published_at` is an integer
timestamp. The pydantic field declaration bounds `importance` with
`ge=0, le=10`, but pydantic does not re-validate plain attribute assignment,
so the embedded field is an unrestricted integer, matching the runtime
behaviour of assignments such as `item.importance = ...`. -/
structure ContentItem where
  canonical_id : String
  type : String
  source : String
  title : String
  url : String
  published_at : Int
  raw_text : Option String := none
  summary : Option String := none
  tags : List String := []
  importance : Int := 0
  key_entities : List String := []
  people_matches : List String := []
  actionable_insight : Option String := none
  video_id : Option String := none
  channel : Option String := none
deriving Repr, DecidableEq

/-- One element of the enrichment service's `results` list
(src/transform/llm.py lines 95-107): the JSON fields read from each result.
A missing `importance` key is `none` (the Python code defaults it to 0). -/
structure EnrichResult where
  id : String
  summary : Option String := none
  tags : List String := []
  importance : Option Int := none
  key_entities : List String := []
  actionable_insight : Option String := none
deriving Repr, DecidableEq

/-- `results_map = {r["id"]: r for r in result_json.get("results", [])}`
(llm.py line 95): a dict comprehension, so a later result with the same id
overwrites an earlier one; lookup therefore returns the last match. -/
def resultsMapLookup (rs : List EnrichResult) (id : String) : Option EnrichResult :=
  match rs with
  | [] => none
  | r :: rest =>
      match resultsMapLookup rest id with
      | some r2 => some r2
      | none => if r.id = id then some r else none

/-- Outcome of the two-attempt LLM call (llm.py lines 68-91): either both the
primary and the fallback model fail, or one of them returns a parsed
`results` list. -/
inductive LLMOutcome where
  | failure
  | success (results : List EnrichResult)

/-- The per-item update of llm.py lines 98-114: if the service returned a
result for this item's canonical id, overwrite the enrichment fields
(`importance` defaulting to 0 when absent, with no clamping); otherwise the
item passes through unmodified. -/
def applyEnrichment (rs : List EnrichResult) (item : ContentItem) : ContentItem :=
  match resultsMapLookup rs item.canonical_id with
  | some r =>
      { item with
        summary := r.summary
        tags := r.tags
        importance := r.importance.getD 0
        key_entities := r.key_entities
        actionable_insight := r.actionable_insight }
  | none => item

/-- `process_batch` (llm.py lines 14-120) as a function of the batch and the
LLM outcome: an empty batch returns `[]`; if both models fail the original
items are returned; on success every input item is mapped through
`applyEnrichment` (one output item per input item, in order). -/
def process_batch (items : List ContentItem) (outcome : LLMOutcome) : List ContentItem :=
  if items.isEmpty then []
  else
    match outcome with
    | .failure => items
    | .success rs => items.map (applyEnrichment rs)

/-- `state["seen_canonical_ids"].append(item.canonical_id)` (main.py lines
151-153 and 173-175): recording a canonical id appends it to the state's
list, unconditionally. -/
def record (seen : List String) (cid : String) : List String := seen ++ [cid]

/-- The seen-id list that `save_state` (main.py lines 29-40) writes: `none` in
dry-run mode (no write at all); otherwise the list, truncated to its last
5000 entries when it holds more than 5000. -/
def save_state (dryRun : Bool) (seen : List String) : Option (List String) :=
  if dryRun then none
  else some (if seen.length > 5000 then seen.drop (seen.length - 5000) else seen)

/-- A file-system effect, for describing the write behaviour of
`save_state`. -/
inductive FileOp where
  | makedirs (path : String)
  | writeFile (path : String) (content : String)
  | replaceFile (src : String) (dst : String)
deriving Repr, DecidableEq

/-- main.py line 18. -/
def STATE_FILE : String := "state/state.json"

/-- The file-system effect trace of `save_state` (main.py lines 29-40): in dry
run nothing happens; otherwise the state directory is created and the state
JSON is written directly to `STATE_FILE` via `open(STATE_FILE, "w")`. -/
def save_state_ops (dryRun : Bool) (stateJson : String) : List FileOp :=
  if dryRun then []
  else [FileOp.makedirs "state", FileOp.writeFile STATE_FILE stateJson]

/-- Modelled from the spec (section 4.2 of spec.md): the trace writes a
temporary file distinct from the target and then replaces the target with
it, and never writes the target directly. Used only to compare the spec's
atomicity requirement against `save_state_ops`. -/
def writesTempThenReplace (ops : List FileOp) (target : String) : Prop :=
  (∀ c, FileOp.writeFile target c ∉ ops) ∧
  ∃ tmp c, tmp ≠ target ∧ FileOp.writeFile tmp c ∈ ops ∧
    FileOp.replaceFile tmp target ∈ ops

/-- Run counters of one source category (main.py lines 105-118, the fields
touched by the per-item loader loop). -/
structure RunStats where
  uploaded : Nat := 0
  errors : Nat := 0
deriving Repr, DecidableEq

/-- The per-item step of the run coordinator's loading loop (main.py lines
145-159 and 164-182): on `"created"` or `"updated"` the canonical id is
appended to the seen list and the uploaded counter bumps; on `"error"` the
error counter bumps and the seen list is unchanged; any other status leaves
both unchanged. -/
def load_item_step (seen : List String) (stats : RunStats) (status : String)
    (cid : String) : List String × RunStats :=
  if status = "created" ∨ status = "updated" then
    (record seen cid, { stats with uploaded := stats.uploaded + 1 })
  else if status = "error" then
    (seen, { stats with errors := stats.errors + 1 })
  else (seen, stats)

namespace Rss

/-- A parsed feed entry: the fields read by src/extract/rss.py lines 41-67.
`published` and `updated` model `published_parsed` / `updated_parsed`
(absent or falsy ⇒ `none`); `title` is `none` when the entry has no title
(rss.py defaults it to `"No Title"`). -/
structure FeedEntry where
  link : String := ""
  published : Option Int := none
  updated : Option Int := none
  title : Option String := none
  content : Option String := none
  summary : Option String := none
  description : Option String := none
deriving Repr, DecidableEq

/-- `parse_date` (rss.py lines 12-18): `published` first, then `updated`,
then the extraction time of the run (`now`). -/
def parse_date (now : Int) (e : FeedEntry) : Int :=
  match e.published with
  | some t => t
  | none =>
      match e.updated with
      | some t => t
      | none => now

/-- `generate_canonical_id` (rss.py lines 8-10): `"rss:" + sha1(url)` in hex.
The SHA-1 hex digest is abstracted as the explicit function parameter
`sha1hex`; the claims proved here hold for every such function. -/
def generate_canonical_id (sha1hex : String → String) (url : String) : String :=
  "rss:" ++ sha1hex url

/-- Body selection of rss.py lines 59-67: prefer `content`, then `summary`,
then `description`, else the empty string. -/
def entry_content (e : FeedEntry) : String :=
  match e.content with
  | some c => c
  | none =>
      match e.summary with
      | some s => s
      | none => e.description.getD ""

/-- How extract_rss disposes of a single feed entry. -/
inductive EntryOutcome where
  | skippedNoUrl
  | skippedOld
  | skippedDuplicate
  | kept (item : ContentItem)
deriving Repr, DecidableEq

/-- The `ContentItem` built for a surviving entry (rss.py lines 69-77). -/
def mkArticle (sha1hex : String → String) (sourceName : String) (now : Int)
    (e : FeedEntry) : ContentItem :=
  { canonical_id := generate_canonical_id sha1hex e.link
    type := "Article"
    source := sourceName
    title := e.title.getD "No Title"
    url := e.link
    published_at := parse_date now e
    raw_text := some (entry_content e) }

/-- The per-entry branch structure of extract_rss (rss.py lines 41-78), in
source order: no url ⇒ skip; resolved publish date strictly older than the
cutoff (`target_date`, when given) ⇒ skipped as old; canonical id already in
the seen-set ⇒ skipped as duplicate; otherwise the entry becomes an
Article. -/
def process_entry (sha1hex : String → String) (sourceName : String)
    (seen : List String) (target_date : Option Int) (now : Int)
    (e : FeedEntry) : EntryOutcome :=
  if e.link = "" then .skippedNoUrl
  else
    let pub_date := parse_date now e
    if olderThan target_date pub_date then .skippedOld
    else
      let c_id := generate_canonical_id sha1hex e.link
      if c_id ∈ seen then .skippedDuplicate
      else .kept (mkArticle sha1hex sourceName now e)

/-- The entry loop of extract_rss for one feed (rss.py lines 41-78): collect
the kept items in order. The seen-set is only read, never extended. -/
def feed_items (sha1hex : String → String) (sourceName : String)
    (seen : List String) (target_date : Option Int) (now : Int) :
    List FeedEntry → List ContentItem
  | [] => []
  | e :: rest =>
      match process_entry sha1hex sourceName seen target_date now e with
      | .kept item => item :: feed_items sha1hex sourceName seen target_date now rest
      | _ => feed_items sha1hex sourceName seen target_date now rest

/-- One configured feed source (rss.py line 28): `url` is `none` when absent;
an empty url string is also falsy and skipped. -/
structure RssSource where
  name : String
  url : Option String := none
deriving Repr, DecidableEq

/-- `extract_rss` (rss.py lines 20-85). Fetching and parsing a feed is the
environment parameter `fetch`; a fetch that raises is `none` and that source
contributes nothing (the `except` branch, lines 82-83). The `seen` set is
passed to every source unchanged: extract_rss contains no statement that
adds to it. -/
def extract_rss (sha1hex : String → String)
    (fetch : String → Option (List FeedEntry)) (seen : List String)
    (target_date : Option Int) (now : Int) : List RssSource → List ContentItem
  | [] => []
  | s :: rest =>
      match s.url with
      | none => extract_rss sha1hex fetch seen target_date now rest
      | some u =>
          if u = "" then extract_rss sha1hex fetch seen target_date now rest
          else
            match fetch u with
            | none => extract_rss sha1hex fetch seen target_date now rest
            | some entries =>
                feed_items sha1hex s.name seen target_date now entries ++
                  extract_rss sha1hex fetch seen target_date now rest

end Rss

namespace Yt

/-- `generate_canonical_id` (src/extract/youtube.py lines 9-10). -/
def generate_canonical_id (videoId : String) : String := "yt:" ++ videoId

/-- A video as surfaced by the YouTube API, with its publish time already
parsed to an integer (youtube.py lines 126-139 / 215-249; a malformed
timestamp falls back to the current time before these functions run, so the
parsed value is all that matters here). -/
structure VideoEntry where
  videoId : String
  publishedAt : Int
  title : String := ""
  description : String := ""
  channelTitle : String := ""
deriving Repr, DecidableEq

/-- The `ContentItem` built by extract_channels (youtube.py lines 150-161). -/
def mkChannelItem (channelName : String) (e : VideoEntry) : ContentItem :=
  { canonical_id := generate_canonical_id e.videoId
    type := "YouTube"
    source := "YT:" ++ channelName
    title := e.title
    url := "https://www.youtube.com/watch?v=" ++ e.videoId
    published_at := e.publishedAt
    raw_text := some (e.description ++ "\n\nChannel: " ++ e.channelTitle)
    video_id := some e.videoId
    channel := some e.channelTitle
    people_matches := [channelName] }

/-- Result of the entry loop over one playlist page (youtube.py lines
125-163): the items emitted, the seen-set after the loop, and whether the
early-stop fired (`stop_monitoring`). -/
structure PageResult where
  items : List ContentItem
  seen : List String
  stopped : Bool
deriving Repr, DecidableEq

/-- The entry loop over one playlist page (youtube.py lines 125-163), in
source order per entry: if a `start_date` is given and the entry's publish
time is strictly older, stop — the remaining entries of the page are never
evaluated; else if the canonical id is already seen, skip it and keep
going; else emit the item and add its id to the seen-set at once. -/
def process_page_entries (channelName : String) (start_date : Option Int)
    (seen : List String) : List VideoEntry → PageResult
  | [] => ⟨[], seen, false⟩
  | e :: rest =>
      let c_id := generate_canonical_id e.videoId
      if olderThan start_date e.publishedAt then ⟨[], seen, true⟩
      else if c_id ∈ seen then
        process_page_entries channelName start_date seen rest
      else
        let r := process_page_entries channelName start_date (c_id :: seen) rest
        ⟨mkChannelItem channelName e :: r.items, r.seen, r.stopped⟩

/-- The paging loop of extract_channels for one channel (youtube.py lines
109-167): an empty page breaks the loop; a page whose entry loop fired the
early stop ends the traversal with no further page fetched; the pages list
ending models the absence of `nextPageToken`. -/
def process_pages (channelName : String) (start_date : Option Int)
    (seen : List String) : List (List VideoEntry) → List ContentItem × List String
  | [] => ([], seen)
  | page :: rest =>
      if page.isEmpty then ([], seen)
      else
        let r := process_page_entries channelName start_date seen page
        if r.stopped then (r.items, r.seen)
        else
          let out := process_pages channelName start_date r.seen rest
          (r.items ++ out.1, out.2)

/-- One configured channel (youtube.py lines 76-90). -/
structure Channel where
  name : String
  enabled : Bool := true
  channelId : Option String := none
  handle : Option String := none
deriving Repr, DecidableEq

/-- The external YouTube API as seen by extract_channels: handle resolution
(`none` models a failed resolution, youtube.py lines 36-51) and the pages of
a channel's uploads playlist (`none` models a per-channel fetch error or a
channel reply without items, lines 94-103 and 168-169). -/
structure ChannelEnv where
  resolveHandle : String → Option String
  uploadsPages : String → Option (List (List VideoEntry))

/-- Channel-id selection of extract_channels (youtube.py lines 80-90): an
explicit `channel_id` wins; otherwise the handle is resolved, a failed
resolution (or no handle at all) skipping the channel. -/
def config_channel_id (env : ChannelEnv) (ch : Channel) : Option String :=
  match ch.channelId with
  | some i => some i
  | none =>
      match ch.handle with
      | some hd => env.resolveHandle hd
      | none => none

/-- The per-channel body of extract_channels (youtube.py lines 76-169): a
disabled channel, an unresolved id or a failed playlist fetch contributes
nothing and leaves the seen-set unchanged (the `continue` / `except`
branches); otherwise the channel's uploads playlist is paged with early
stop. -/
def channel_items (env : ChannelEnv) (start_date : Option Int)
    (seen : List String) (ch : Channel) : List ContentItem × List String :=
  if ch.enabled then
    match config_channel_id env ch with
    | none => ([], seen)
    | some chId =>
        match env.uploadsPages chId with
        | none => ([], seen)
        | some pages => process_pages ch.name start_date seen pages
  else ([], seen)

/-- `extract_channels` (youtube.py lines 53-171): the channel loop, threading
the seen-set from channel to channel and returning it updated. -/
def extract_channels (env : ChannelEnv) (start_date : Option Int)
    (seen : List String) : List Channel → List ContentItem × List String
  | [] => ([], seen)
  | ch :: rest =>
      let r := channel_items env start_date seen ch
      let out := extract_channels env start_date r.2 rest
      (r.1 ++ out.1, out.2)

/-- One tracked person (youtube.py lines 201-203). -/
structure Person where
  name : String
  aliases : List String := []
deriving Repr, DecidableEq

/-- The `ContentItem` built by extract_youtube for a search result
(youtube.py lines 251-262). -/
def mkSearchItem (personName : String) (e : VideoEntry) : ContentItem :=
  { canonical_id := generate_canonical_id e.videoId
    type := "YouTube"
    source := "YouTube"
    title := e.title
    url := "https://www.youtube.com/watch?v=" ++ e.videoId
    published_at := e.publishedAt
    raw_text := some (e.description ++ "\n\nChannel: " ++ e.channelTitle)
    video_id := some e.videoId
    channel := some e.channelTitle
    people_matches := [personName] }

/-- The result loop of extract_youtube for one person (youtube.py lines
214-264): a result whose canonical id is already seen is skipped; otherwise
the item is emitted and its id added to the seen-set at once. (The alias
match over title and description is computed but its `continue` is commented
out, so it has no effect and is not modelled.) -/
def process_search_results (personName : String) (seen : List String) :
    List VideoEntry → List ContentItem × List String
  | [] => ([], seen)
  | e :: rest =>
      let c_id := generate_canonical_id e.videoId
      if c_id ∈ seen then process_search_results personName seen rest
      else
        let out := process_search_results personName (c_id :: seen) rest
        (mkSearchItem personName e :: out.1, out.2)

/-- The person loop of extract_youtube (youtube.py lines 201-264): one search
per person (`search` models search_youtube, which returns `[]` on an API
error), threading the seen-set. -/
def search_people (search : Person → List VideoEntry) (seen : List String) :
    List Person → List ContentItem × List String
  | [] => ([], seen)
  | p :: rest =>
      let out := process_search_results p.name seen (search p)
      let more := search_people search out.2 rest
      (out.1 ++ more.1, more.2)

/-- `extract_youtube` (youtube.py lines 173-266): only the first
`max_people_per_run` people are searched (`people[:max_people_per_run]`,
line 197). -/
def extract_youtube (search : Person → List VideoEntry)
    (maxPeoplePerRun : Nat) (seen : List String) (people : List Person) :
    List ContentItem × List String :=
  search_people search seen (people.take maxPeoplePerRun)

end Yt

namespace Notion

/-- Reply of the Notion database query issued by `find_page_by_canonical_id`
(src/load/notion.py lines 23-46): the request may raise, or return a status
code together with the ids of the matching pages. -/
inductive QueryReply where
  | raised
  | httpStatus (code : Nat) (results : List String)
deriving Repr, DecidableEq

/-- Reply of a Notion page write (PATCH update or POST create, notion.py
lines 128-154). -/
inductive WriteReply where
  | raised
  | httpStatus (code : Nat)
deriving Repr, DecidableEq

/-- The remote store's behaviour for one `upsert_item` call: the reply to the
lookup query, to the update PATCH (when a page was found) and to the create
POST (when none was). -/
structure NotionEnv where
  queryReply : QueryReply
  patchReply : WriteReply
  createReply : WriteReply

/-- `find_page_by_canonical_id` (notion.py lines 23-46): a raised request or
a non-200 status yields `None`; otherwise the first matching page id, if
any. -/
def find_page_by_canonical_id (reply : QueryReply) : Option String :=
  match reply with
  | .raised => none
  | .httpStatus code results => if code = 200 then results.head? else none

/-- `upsert_item` (notion.py lines 90-154): look the page up by canonical id;
if found, PATCH it (`200 ⇒ "updated"`, otherwise `"error"`); if not found,
POST a new page (`200 ⇒ "created"`, otherwise `"error"`); a raised request
in the write is caught and yields `"error"`. -/
def upsert_item (env : NotionEnv) (_item : ContentItem) : String :=
  match find_page_by_canonical_id env.queryReply with
  | some _ =>
      match env.patchReply with
      | .raised => "error"
      | .httpStatus code => if code = 200 then "updated" else "error"
  | none =>
      match env.createReply with
      | .raised => "error"
      | .httpStatus code => if code = 200 then "created" else "error"

/-- A write reply that is a transport failure or a non-2xx response. -/
def writeFailed : WriteReply → Bool
  | .raised => true
  | .httpStatus code => code != 200

end Notion

/-- Invariant tying an extractor's output items to the seen-set it was given
and the seen-set it returns: the emitted canonical ids are pairwise
distinct, the input seen-set is preserved, and every emitted item's id was
fresh on entry and is registered on exit. -/
def ExtractorInv (seen : List String) (out : List ContentItem × List String) : Prop :=
  (out.1.map ContentItem.canonical_id).Nodup ∧
  (∀ x ∈ seen, x ∈ out.2) ∧
  (∀ i ∈ out.1, i.canonical_id ∈ out.2 ∧ i.canonical_id ∉ seen)

/-- A sample article used to exercise the embedded pipeline at concrete
inputs. -/
def sampleItem : ContentItem :=
  { canonical_id := "rss:abc"
    type := "Article"
    source := "Feed"
    title := "Title"
    url := "http://example.com/a"
    published_at := 100 }

/-- An enrichment result carrying an out-of-range importance score. -/
def overResult : EnrichResult := { id := "rss:abc", importance := some 15 }

/-- A store environment whose lookup query fails with HTTP 500 while the
create POST succeeds. -/
def failingQueryEnv : Notion.NotionEnv :=
  { queryReply := .httpStatus 500 []
    patchReply := .httpStatus 200
    createReply := .httpStatus 200 }

/-- A feed entry reachable from two different feed sources. -/
def dupEntry : Rss.FeedEntry := { link := "http://x", published := some 5 }

/-- Two enabled feed sources with distinct urls. -/
def dupSources : List Rss.RssSource :=
  [{ name := "feedA", url := some "u1" }, { name := "feedB", url := some "u2" }]

/-- A fetch environment in which both sources' feeds contain the same
entry (the same article url syndicated twice). -/
def dupFetch : String → Option (List Rss.FeedEntry) := fun u =>
  if u = "u1" ∨ u = "u2" then some [dupEntry] else none

/-- A seen-id list with 5005 distinct entries. -/
def bigSeen : List String := (List.range 5005).map (fun n => toString n)

/-- A feed entry whose resolved publish time sits exactly on a cutoff of
10. -/
def boundaryEntry : Rss.FeedEntry := { link := "http://b", published := some 10 }

/-- An in-window video (publish time 12 against a start date of 10). -/
def wNew : Yt.VideoEntry := { videoId := "v1", publishedAt := 12 }

/-- An out-of-window video (publish time 5 against a start date of 10). -/
def wOld : Yt.VideoEntry := { videoId := "v2", publishedAt := 5 }

/-- An in-window video used as an already-seen duplicate. -/
def wDup : Yt.VideoEntry := { videoId := "v3", publishedAt := 11 }

/-- A video placed after the early-stop point. -/
def wAfter : Yt.VideoEntry := { videoId := "v4", publishedAt := 20 }

/-- A store environment whose lookup finds a page but whose update PATCH
fails with HTTP 500. -/
def patchFailEnv : Notion.NotionEnv :=
  { queryReply := .httpStatus 200 ["page1"]
    patchReply := .httpStatus 500
    createReply := .httpStatus 200 }

/-- A store environment whose every request raises or fails. -/
def errEnv : Notion.NotionEnv :=
  { queryReply := .raised
    patchReply := .raised
    createReply := .httpStatus 503 }

/-- C1: the claim says an out-of-range importance from the enrichment
service is rejected or clamped rather than stored; the code
(`item.importance = res.get("importance", 0)`, llm.py line 105) stores it
as-is, violating the `ge=0, le=10` bound declared on
`ContentItem.importance` in models.py. At the failing input — a one-item
batch whose enrichment result carries importance 15 — the stored value is
15, outside [0,10]. -/
theorem c1_out_of_range_importance_stored :
    (process_batch [sampleItem] (.success [overResult])).map ContentItem.importance
      = [15] ∧ ¬ ((15 : Int) ≤ 10) := by
  constructor
  · decide
  · decide

/-- C2 counterexample: recording a canonical id already present in the run
state is not a no-op — `state["seen_canonical_ids"].append(...)` appends a
duplicate entry, so the stored list changes. -/
theorem c2_record_changes_list : record ["a"] "a" ≠ ["a"] := by decide

/-- C2 (amended): recording an id already present in the seen list appends a
duplicate entry — the stored list is changed, not left alone — but the set
of ids is unchanged: membership in the seen list is exactly preserved. -/
theorem c2_record_membership_idempotent (seen : List String) (cid : String)
    (h : cid ∈ seen) :
    record seen cid ≠ seen ∧ (∀ x, x ∈ record seen cid ↔ x ∈ seen) := by
  constructor
  · intro he
    have hlen := congrArg List.length he
    simp [record] at hlen
  · intro x
    rw [record, List.mem_append, List.mem_singleton]
    constructor
    · rintro (hx | rfl)
      · exact hx
      · exact h
    · exact Or.inl

/-- Witness for C2 (amended) at the concrete state `["a"]` and id `"a"`. -/
theorem c2_record_membership_idempotent_witness :
    record ["a"] "a" ≠ ["a"] ∧ (∀ x, x ∈ record ["a"] "a" ↔ x ∈ ["a"]) :=
  c2_record_membership_idempotent ["a"] "a" (by decide)

/-- C5: if both enrichment models fail, `process_batch` returns exactly the
input items unmodified; for every outcome the output has one item per
input item; and an item the service omitted from its results is returned
unmodified at its position rather than dropped. -/
theorem c5_process_batch_never_drops (items : List ContentItem) :
    process_batch items .failure = items ∧
    (∀ o, (process_batch items o).length = items.length) ∧
    (∀ rs i (hi : i < items.length),
        resultsMapLookup rs (items.get ⟨i, hi⟩).canonical_id = none →
        (process_batch items (.success rs))[i]? = some (items.get ⟨i, hi⟩)) := by
  refine ⟨?_, ?_, ?_⟩
  · cases items <;> rfl
  · intro o
    cases o <;> cases items <;> simp [process_batch]
  · intro rs i hi hnone
    match items, hi with
    | a :: l, hi =>
      show ((a :: l).map (applyEnrichment rs))[i]? = _
      rw [List.getElem?_map (applyEnrichment rs) (a :: l) i,
        List.getElem?_eq_getElem hi]
      have hget : (a :: l).get ⟨i, hi⟩ = (a :: l)[i] := rfl
      rw [hget] at hnone ⊢
      simp [applyEnrichment, hnone]

/-- Witness for C5 at a concrete one-item batch with an empty result list. -/
theorem c5_process_batch_never_drops_witness :
    (process_batch [sampleItem] (.success []))[0]? = some ([sampleItem].get ⟨0, by decide⟩) :=
  (c5_process_batch_never_drops [sampleItem]).2.2 [] 0 (by decide) (by rfl)

/-- C6: persisting a state whose seen list exceeds 5000 entries writes
exactly the length-5000 suffix — the 5000 most recently appended ids —
evicting the oldest prefix by insertion order. -/
theorem c6_save_state_keeps_last_5000 (seen : List String)
    (h : 5000 < seen.length) :
    save_state false seen = some (seen.drop (seen.length - 5000)) ∧
    (seen.drop (seen.length - 5000)).length = 5000 ∧
    seen.take (seen.length - 5000) ++ seen.drop (seen.length - 5000) = seen := by
  refine ⟨?_, ?_, ?_⟩
  · simp [save_state, h]
  · rw [List.length_drop]
    omega
  · exact List.take_append_drop _ _

/-- Witness for C6 at a concrete 5005-entry seen list. -/
theorem c6_save_state_keeps_last_5000_witness :
    save_state false bigSeen = some (bigSeen.drop (bigSeen.length - 5000)) ∧
    (bigSeen.drop (bigSeen.length - 5000)).length = 5000 ∧
    bigSeen.take (bigSeen.length - 5000) ++ bigSeen.drop (bigSeen.length - 5000) = bigSeen :=
  c6_save_state_keeps_last_5000 bigSeen (by simp [bigSeen])

/-- C7 counterexample: the non-dry-run effect trace of `save_state` is not a
write-temp-then-replace — it writes the state file directly, so the spec's
atomicity requirement fails on the code. -/
theorem c7_save_state_not_atomic :
    ¬ writesTempThenReplace (save_state_ops false "{}") STATE_FILE := by
  intro hw
  exact hw.1 "{}" (by simp [save_state_ops])

/-- C7 (amended): `save_state` ensures the state directory exists and then
writes the serialized state directly to the state file, with no temporary
file and no replace step; a crash mid-write can therefore corrupt a
previously valid state file. -/
theorem c7_save_state_writes_in_place (stateJson : String) :
    save_state_ops false stateJson
      = [FileOp.makedirs "state", FileOp.writeFile STATE_FILE stateJson] := rfl

/-- C8 counterexample: a non-2xx response from the remote store does not
always yield `"error"` — when the lookup query fails with HTTP 500 the
loader treats the page as not found and a successful create returns
`"created"`. -/
theorem c8_query_failure_yields_created :
    Notion.upsert_item failingQueryEnv sampleItem = "created" ∧
    ("created" : String) ≠ "error" := by
  constructor
  · rfl
  · decide

/-- C8 (amended): `upsert_item` always returns exactly one of `"created"`,
`"updated"`, `"error"` and never raises; a transport failure or non-2xx
response on the update PATCH or on the create POST yields `"error"`; a
failed lookup query, however, is treated as not-found and falls through to
the create path. -/
theorem c8_upsert_status_total (env : Notion.NotionEnv) (item : ContentItem) :
    (Notion.upsert_item env item = "created" ∨
      Notion.upsert_item env item = "updated" ∨
      Notion.upsert_item env item = "error") ∧
    (∀ p, Notion.find_page_by_canonical_id env.queryReply = some p →
      Notion.writeFailed env.patchReply = true →
      Notion.upsert_item env item = "error") ∧
    (Notion.find_page_by_canonical_id env.queryReply = none →
      Notion.writeFailed env.createReply = true →
      Notion.upsert_item env item = "error") := by
  refine ⟨?_, ?_, ?_⟩
  · unfold Notion.upsert_item
    cases Notion.find_page_by_canonical_id env.queryReply with
    | some p =>
        cases env.patchReply with
        | raised => simp
        | httpStatus code =>
            by_cases hc : code = 200 <;> simp [hc]
    | none =>
        cases env.createReply with
        | raised => simp
        | httpStatus code =>
            by_cases hc : code = 200 <;> simp [hc]
  · intro p hp hfail
    unfold Notion.upsert_item
    rw [hp]
    cases hr : env.patchReply with
    | raised => rfl
    | httpStatus code =>
        rw [hr] at hfail
        simp [Notion.writeFailed] at hfail
        simp [hfail]
  · intro hp hfail
    unfold Notion.upsert_item
    rw [hp]
    cases hr : env.createReply with
    | raised => rfl
    | httpStatus code =>
        rw [hr] at hfail
        simp [Notion.writeFailed] at hfail
        simp [hfail]

/-- Witness for C8 (amended): a failed PATCH on a found page and a failed
create both produce `"error"`. -/
theorem c8_upsert_status_total_witness :
    Notion.upsert_item patchFailEnv sampleItem = "error" ∧
    Notion.upsert_item errEnv sampleItem = "error" :=
  ⟨(c8_upsert_status_total patchFailEnv sampleItem).2.1 "page1" (by rfl) (by rfl),
   (c8_upsert_status_total errEnv sampleItem).2.2 (by rfl) (by rfl)⟩

/-- C9: in the coordinator's per-item loading step, a canonical id not yet in
the state is in the resulting seen list — and in the list `save_state`
then persists — exactly when upsert returned `"created"` or `"updated"`;
on `"error"` the seen list is unchanged, so the item can be retried on a
future run. -/
theorem c9_seen_iff_uploaded (seen : List String) (stats : RunStats)
    (status cid : String) (hnew : cid ∉ seen) :
    (cid ∈ (load_item_step seen stats status cid).1 ↔
      (status = "created" ∨ status = "updated")) ∧
    (status = "error" → (load_item_step seen stats status cid).1 = seen) ∧
    (∀ written, save_state false (load_item_step seen stats status cid).1 = some written →
      (cid ∈ written ↔ (status = "created" ∨ status = "updated"))) := by
  by_cases hcu : status = "created" ∨ status = "updated"
  · have hstep : (load_item_step seen stats status cid).1 = seen ++ [cid] := by
      simp [load_item_step, hcu, record]
    refine ⟨?_, ?_, ?_⟩
    · rw [hstep]
      simp [hcu]
    · intro herr
      rcases hcu with hc | hc <;> rw [hc] at herr <;> exact absurd herr (by decide)
    · intro written hw
      rw [hstep] at hw
      simp only [save_state, if_neg (by decide : ¬ (false = true)), Option.some_inj] at hw
      constructor
      · intro _
        exact hcu
      · intro _
        subst hw
        by_cases hlen : (seen ++ [cid]).length > 5000
        · rw [if_pos hlen]
          have hle : (seen ++ [cid]).length - 5000 ≤ seen.length := by
            simp only [List.length_append, List.length_singleton]
            omega
          rw [List.drop_append_of_le_length hle]
          exact List.mem_append_right _ (List.mem_singleton_self cid)
        · rw [if_neg hlen]
          exact List.mem_append_right _ (List.mem_singleton_self cid)
  · have hstep : (load_item_step seen stats status cid).1 = seen := by
      by_cases herr : status = "error" <;> simp [load_item_step, hcu, herr]
    refine ⟨?_, ?_, ?_⟩
    · rw [hstep]
      constructor
      · intro hmem
        exact absurd hmem hnew
      · intro hc
        exact absurd hc hcu
    · intro _
      exact hstep
    · intro written hw
      rw [hstep] at hw
      simp only [save_state, if_neg (by decide : ¬ (false = true)), Option.some_inj] at hw
      subst hw
      constructor
      · intro hmem
        by_cases hlen : seen.length > 5000
        · rw [if_pos hlen] at hmem
          exact absurd (List.drop_subset _ _ hmem) hnew
        · rw [if_neg hlen] at hmem
          exact absurd hmem hnew
      · intro hc
        exact absurd hc hcu

/-- Witness for C9 at the empty state with a successful create. -/
theorem c9_seen_iff_uploaded_witness :
    ("id1" ∈ (load_item_step [] {} "created" "id1").1 ↔
      (("created" : String) = "created" ∨ ("created" : String) = "updated")) ∧
    (("created" : String) = "error" → (load_item_step [] {} "created" "id1").1 = []) ∧
    (∀ written, save_state false (load_item_step [] {} "created" "id1").1 = some written →
      ("id1" ∈ written ↔ (("created" : String) = "created" ∨ ("created" : String) = "updated"))) :=
  c9_seen_iff_uploaded [] {} "created" "id1" (by decide)

/-- An absent cutoff never classifies a timestamp as old; a present cutoff
does so exactly when the timestamp is strictly smaller. -/
theorem olderThan_some (t ts : Int) : olderThan (some t) ts = decide (ts < t) := rfl

/-- C4: with a cutoff in force, extract_rss's per-entry disposition has an
inclusive lower boundary — an entry with a url, a fresh canonical id and a
resolved publish time equal to the cutoff becomes an Article, while any
entry with a url whose resolved publish time is strictly older than the
cutoff is skipped as old (before the duplicate check, for every
seen-set). -/
theorem c4_rss_cutoff_inclusive (sha1hex : String → String) (sourceName : String)
    (now : Int) (e : Rss.FeedEntry) (hlink : ¬ e.link = "") :
    (∀ (cutoff : Int) (seen : List String),
        Rss.generate_canonical_id sha1hex e.link ∉ seen →
        Rss.parse_date now e = cutoff →
        Rss.process_entry sha1hex sourceName seen (some cutoff) now e
          = .kept (Rss.mkArticle sha1hex sourceName now e)) ∧
    (∀ (cutoff : Int) (seen : List String),
        Rss.parse_date now e < cutoff →
        Rss.process_entry sha1hex sourceName seen (some cutoff) now e
          = .skippedOld) := by
  constructor
  · intro cutoff seen hfresh heq
    have hnotold : olderThan (some cutoff) (Rss.parse_date now e) = false := by
      rw [olderThan_some, heq]
      simp
    simp [Rss.process_entry, hlink, hnotold, hfresh]
  · intro cutoff seen hlt
    have hold : olderThan (some cutoff) (Rss.parse_date now e) = true := by
      rw [olderThan_some]
      simpa using hlt
    simp [Rss.process_entry, hlink, hold]

/-- Witness for C4: an entry published exactly at cutoff 10 is kept; the same
entry is skipped as old against cutoff 11. -/
theorem c4_rss_cutoff_inclusive_witness :
    Rss.process_entry (fun s => s) "S" [] (some 10) 0 boundaryEntry
      = .kept (Rss.mkArticle (fun s => s) "S" 0 boundaryEntry) ∧
    Rss.process_entry (fun s => s) "S" [] (some 11) 0 boundaryEntry
      = .skippedOld :=
  ⟨(c4_rss_cutoff_inclusive (fun s => s) "S" 0 boundaryEntry (by decide)).1 10 []
      (by decide) (by decide),
   (c4_rss_cutoff_inclusive (fun s => s) "S" 0 boundaryEntry (by decide)).2 11 []
      (by decide)⟩

/-- C3: channel paging early-stop. First: in a page whose in-window prefix is
followed by an entry strictly older than `start_date`, the entry loop
produces exactly the prefix's items and seen-set and stops — the old entry's
successors in the page are never evaluated. Second: an in-window entry whose
canonical id is already seen is skipped but processing continues with the
rest of the page. Third: a page whose entry loop stopped ends the channel's
traversal — the remaining pages are never fetched. -/
theorem c3_channel_early_stop (channelName : String) (t : Int) :
    (∀ (pre : List Yt.VideoEntry) (e : Yt.VideoEntry) (post : List Yt.VideoEntry)
        (seen : List String),
        e.publishedAt < t →
        (∀ e2 ∈ pre, ¬ e2.publishedAt < t) →
        Yt.process_page_entries channelName (some t) seen (pre ++ e :: post)
          = ⟨(Yt.process_page_entries channelName (some t) seen pre).items,
             (Yt.process_page_entries channelName (some t) seen pre).seen, true⟩) ∧
    (∀ (e : Yt.VideoEntry) (post : List Yt.VideoEntry) (seen : List String),
        ¬ e.publishedAt < t →
        Yt.generate_canonical_id e.videoId ∈ seen →
        Yt.process_page_entries channelName (some t) seen (e :: post)
          = Yt.process_page_entries channelName (some t) seen post) ∧
    (∀ (page : List Yt.VideoEntry) (rest : List (List Yt.VideoEntry))
        (seen : List String),
        (Yt.process_page_entries channelName (some t) seen page).stopped = true →
        Yt.process_pages channelName (some t) seen (page :: rest)
          = ((Yt.process_page_entries channelName (some t) seen page).items,
             (Yt.process_page_entries channelName (some t) seen page).seen)) := by
  refine ⟨?_, ?_, ?_⟩
  · intro pre e post seen hold
    induction pre generalizing seen with
    | nil =>
        intro _
        have he : olderThan (some t) e.publishedAt = true := by
          rw [olderThan_some]
          simpa using hold
        simp [Yt.process_page_entries, he]
    | cons p pre ih =>
        intro hpre
        have hp : olderThan (some t) p.publishedAt = false := by
          rw [olderThan_some]
          simpa using hpre p (List.mem_cons_self p pre)
        have hpre2 : ∀ e2 ∈ pre, ¬ e2.publishedAt < t :=
          fun e2 he2 => hpre e2 (List.mem_cons_of_mem p he2)
        by_cases hd : Yt.generate_canonical_id p.videoId ∈ seen
        · simp only [List.cons_append, Yt.process_page_entries, hp,
            Bool.false_eq_true, if_false, if_pos hd, List.append_eq]
          exact ih seen hpre2
        · simp only [List.cons_append, Yt.process_page_entries, hp,
            Bool.false_eq_true, if_false, if_neg hd, List.append_eq]
          rw [ih (Yt.generate_canonical_id p.videoId :: seen) hpre2]
  · intro e post seen hin hdup
    have he : olderThan (some t) e.publishedAt = false := by
      rw [olderThan_some]
      simpa using hin
    simp [Yt.process_page_entries, he, hdup]
  · intro page rest seen hstop
    have hne : page.isEmpty = false := by
      cases page with
      | nil => simp [Yt.process_page_entries] at hstop
      | cons a l => rfl
    simp [Yt.process_pages, hne, hstop]

/-- Witness for C3 at a concrete two-page mock feed with start date 10: an
old entry after an in-window one stops the page; a seen in-window entry is
skipped without stopping; a stopped page prevents the next page from being
processed. -/
theorem c3_channel_early_stop_witness :
    (Yt.process_page_entries "c" (some 10) [] ([wNew] ++ wOld :: [wAfter])
      = ⟨(Yt.process_page_entries "c" (some 10) [] [wNew]).items,
         (Yt.process_page_entries "c" (some 10) [] [wNew]).seen, true⟩) ∧
    (Yt.process_page_entries "c" (some 10) ["yt:v3"] (wDup :: [wNew])
      = Yt.process_page_entries "c" (some 10) ["yt:v3"] [wNew]) ∧
    (Yt.process_pages "c" (some 10) [] ([wOld] :: [[wAfter]])
      = ((Yt.process_page_entries "c" (some 10) [] [wOld]).items,
         (Yt.process_page_entries "c" (some 10) [] [wOld]).seen)) :=
  ⟨(c3_channel_early_stop "c" 10).1 [wNew] wOld [wAfter] [] (by decide) (by decide),
   (c3_channel_early_stop "c" 10).2.1 wDup [wNew] ["yt:v3"] (by decide) (by decide),
   (c3_channel_early_stop "c" 10).2.2 [wOld] [[wAfter]] [] (by decide)⟩

/-- The empty extraction result satisfies the extractor invariant. -/
theorem extractorInv_nil (seen : List String) : ExtractorInv seen ([], seen) := by
  refine ⟨List.nodup_nil, fun x hx => hx, ?_⟩
  intro i hi
  exact absurd hi (List.not_mem_nil i)

/-- Sequencing two extractions that thread the seen-set preserves the
extractor invariant; in particular the two output lists' canonical ids are
disjoint. -/
theorem extractorInv_compose {seen : List String}
    {out1 out2 : List ContentItem × List String}
    (h1 : ExtractorInv seen out1) (h2 : ExtractorInv out1.2 out2) :
    ExtractorInv seen (out1.1 ++ out2.1, out2.2) := by
  obtain ⟨n1, sub1, m1⟩ := h1
  obtain ⟨n2, sub2, m2⟩ := h2
  refine ⟨?_, fun x hx => sub2 x (sub1 x hx), ?_⟩
  · rw [List.map_append]
    refine List.Nodup.append n1 n2 ?_
    intro a ha1 ha2
    obtain ⟨i1, hi1, heq1⟩ := List.mem_map.1 ha1
    obtain ⟨i2, hi2, heq2⟩ := List.mem_map.1 ha2
    have hin : i1.canonical_id ∈ out1.2 := (m1 i1 hi1).1
    have hout : i2.canonical_id ∉ out1.2 := (m2 i2 hi2).2
    rw [heq1] at hin
    rw [heq2] at hout
    exact hout hin
  · intro i hi
    rcases List.mem_append.1 hi with h | h
    · exact ⟨sub2 _ (m1 i h).1, (m1 i h).2⟩
    · exact ⟨(m2 i h).1, fun hseen => (m2 i h).2 (sub1 _ hseen)⟩

/-- The search-result loop of extract_youtube satisfies the extractor
invariant for every seen-set. -/
theorem process_search_results_inv (personName : String) :
    ∀ (entries : List Yt.VideoEntry) (seen : List String),
      ExtractorInv seen (Yt.process_search_results personName seen entries) := by
  intro entries
  induction entries with
  | nil => exact extractorInv_nil
  | cons e rest ih =>
      intro seen
      by_cases hd : Yt.generate_canonical_id e.videoId ∈ seen
      · simpa [Yt.process_search_results, hd] using ih seen
      · obtain ⟨n, sub, m⟩ := ih (Yt.generate_canonical_id e.videoId :: seen)
        simp only [Yt.process_search_results]
        rw [if_neg hd]
        refine ⟨?_, ?_, ?_⟩
        · rw [List.map_cons]
          refine List.nodup_cons.2 ⟨?_, n⟩
          intro hmem
          obtain ⟨j, hj, hjeq⟩ := List.mem_map.1 hmem
          refine (m j hj).2 ?_
          rw [hjeq]
          exact List.mem_cons_self _ _
        · exact fun x hx => sub x (List.mem_cons_of_mem _ hx)
        · intro i hi
          rcases List.mem_cons.1 hi with rfl | hi2
          · exact ⟨sub _ (List.mem_cons_self _ _), hd⟩
          · exact ⟨(m i hi2).1, fun hs => (m i hi2).2 (List.mem_cons_of_mem _ hs)⟩

/-- The page-entry loop of extract_channels satisfies the extractor
invariant for every seen-set. -/
theorem process_page_entries_inv (channelName : String) (start_date : Option Int) :
    ∀ (entries : List Yt.VideoEntry) (seen : List String),
      ExtractorInv seen
        ((Yt.process_page_entries channelName start_date seen entries).items,
         (Yt.process_page_entries channelName start_date seen entries).seen) := by
  intro entries
  induction entries with
  | nil => exact extractorInv_nil
  | cons e rest ih =>
      intro seen
      cases ho : olderThan start_date e.publishedAt with
      | true =>
          simp only [Yt.process_page_entries, ho, if_true]
          exact extractorInv_nil seen
      | false =>
          by_cases hd : Yt.generate_canonical_id e.videoId ∈ seen
          · simpa [Yt.process_page_entries, ho, hd] using ih seen
          · obtain ⟨n, sub, m⟩ := ih (Yt.generate_canonical_id e.videoId :: seen)
            simp only [Yt.process_page_entries, ho, Bool.false_eq_true, if_false]
            rw [if_neg hd]
            refine ⟨?_, ?_, ?_⟩
            · rw [List.map_cons]
              refine List.nodup_cons.2 ⟨?_, n⟩
              intro hmem
              obtain ⟨j, hj, hjeq⟩ := List.mem_map.1 hmem
              refine (m j hj).2 ?_
              rw [hjeq]
              exact List.mem_cons_self _ _
            · exact fun x hx => sub x (List.mem_cons_of_mem _ hx)
            · intro i hi
              rcases List.mem_cons.1 hi with rfl | hi2
              · exact ⟨sub _ (List.mem_cons_self _ _), hd⟩
              · exact ⟨(m i hi2).1, fun hs => (m i hi2).2 (List.mem_cons_of_mem _ hs)⟩

/-- The paging loop of extract_channels satisfies the extractor invariant. -/
theorem process_pages_inv (channelName : String) (start_date : Option Int) :
    ∀ (pages : List (List Yt.VideoEntry)) (seen : List String),
      ExtractorInv seen (Yt.process_pages channelName start_date seen pages) := by
  intro pages
  induction pages with
  | nil => exact extractorInv_nil
  | cons page rest ih =>
      intro seen
      cases he : page.isEmpty with
      | true =>
          simp only [Yt.process_pages, he, if_true]
          exact extractorInv_nil seen
      | false =>
          simp only [Yt.process_pages, he, Bool.false_eq_true, if_false]
          cases hstop : (Yt.process_page_entries channelName start_date seen page).stopped with
          | true =>
              simp only [hstop, if_true]
              exact process_page_entries_inv channelName start_date page seen
          | false =>
              simp only [hstop, Bool.false_eq_true, if_false]
              exact extractorInv_compose
                (process_page_entries_inv channelName start_date page seen)
                (ih _)

/-- The per-channel body of extract_channels satisfies the extractor
invariant. -/
theorem channel_items_inv (env : Yt.ChannelEnv) (start_date : Option Int)
    (ch : Yt.Channel) (seen : List String) :
    ExtractorInv seen (Yt.channel_items env start_date seen ch) := by
  cases hen : ch.enabled with
  | false =>
      simp only [Yt.channel_items, hen, Bool.false_eq_true, if_false]
      exact extractorInv_nil seen
  | true =>
      cases hcid : Yt.config_channel_id env ch with
      | none =>
          simp only [Yt.channel_items, hen, if_true, hcid]
          exact extractorInv_nil seen
      | some chId =>
          cases hup : env.uploadsPages chId with
          | none =>
              simp only [Yt.channel_items, hen, if_true, hcid, hup]
              exact extractorInv_nil seen
          | some pages =>
              simp only [Yt.channel_items, hen, if_true, hcid, hup]
              exact process_pages_inv ch.name start_date pages seen

/-- extract_channels satisfies the extractor invariant. -/
theorem extract_channels_inv (env : Yt.ChannelEnv) (start_date : Option Int) :
    ∀ (channels : List Yt.Channel) (seen : List String),
      ExtractorInv seen (Yt.extract_channels env start_date seen channels) := by
  intro channels
  induction channels with
  | nil => exact extractorInv_nil
  | cons ch rest ih =>
      intro seen
      exact extractorInv_compose (channel_items_inv env start_date ch seen) (ih _)

/-- The person loop of extract_youtube satisfies the extractor invariant. -/
theorem search_people_inv (search : Yt.Person → List Yt.VideoEntry) :
    ∀ (people : List Yt.Person) (seen : List String),
      ExtractorInv seen (Yt.search_people search seen people) := by
  intro people
  induction people with
  | nil => exact extractorInv_nil
  | cons p rest ih =>
      intro seen
      exact extractorInv_compose
        (process_search_results_inv p.name (search p) seen)
        (ih _)

/-- C10: extract_rss never adds to the seen-set it is given, so a url
syndicated by two different feed sources in one run yields two output items
with the same canonical id — witnessed at a concrete two-source input; by
contrast extract_youtube and extract_channels register each emitted id in
the shared seen-set at once, so for every environment, seen-set, people and
channel list the combined output of a run (search items followed by channel
items, threading the seen-set as main.py does) has pairwise distinct
canonical ids. -/
theorem c10_rss_duplicates_vs_youtube_nodup :
    ((Rss.extract_rss (fun s => s) dupFetch [] none 0 dupSources).map
        ContentItem.canonical_id = ["rss:http://x", "rss:http://x"] ∧
      ¬ ((Rss.extract_rss (fun s => s) dupFetch [] none 0 dupSources).map
        ContentItem.canonical_id).Nodup) ∧
    (∀ (search : Yt.Person → List Yt.VideoEntry) (maxPeoplePerRun : Nat)
        (env : Yt.ChannelEnv) (start_date : Option Int) (seen : List String)
        (people : List Yt.Person) (channels : List Yt.Channel),
        (((Yt.extract_youtube search maxPeoplePerRun seen people).1 ++
            (Yt.extract_channels env start_date
              (Yt.extract_youtube search maxPeoplePerRun seen people).2 channels).1).map
          ContentItem.canonical_id).Nodup) := by
  constructor
  · constructor
    · decide
    · decide
  · intro search maxP env start_date seen people channels
    have h1 : ExtractorInv seen (Yt.extract_youtube search maxP seen people) :=
      search_people_inv search (people.take maxP) seen
    have h2 : ExtractorInv (Yt.extract_youtube search maxP seen people).2
        (Yt.extract_channels env start_date
          (Yt.extract_youtube search maxP seen people).2 channels) :=
      extract_channels_inv env start_date channels _
    exact (extractorInv_compose h1 h2).1

end NotionNews
